import Mathlib

/-!
Verification of the VBA synchronization core of `vba_edit/office_vba.py`.

The classifier, header codec, and the import/export/watch control flow are
embedded shallowly.  Text is modelled at the level of `List Char` with
`String` wrappers; content is newline-only (the source always joins with
"\n" and the Python `splitlines`/`strip` behaviour is reproduced for that
case).  Host COM state (the live VBA project) is modelled as a list of
named components, and exceptions as `Except` values.
-/

deriving instance DecidableEq for Except

namespace VbaEdit

/-- Whitespace as removed by Python `str.strip` (ASCII subset). -/
def isWS (c : Char) : Bool :=
  c = ' ' || c = '\t' || c = '\r' || c = '\n' || c = '\x0b' || c = '\x0c'

/-- Python `str.strip`: drop leading and trailing whitespace. -/
def stripC (l : List Char) : List Char :=
  ((l.dropWhile isWS).reverse.dropWhile isWS).reverse

/-- Split a character list at every newline; a list with `n` newlines yields
`n + 1` chunks (the raw splitter underlying Python `splitlines`). -/
def splitC : List Char → List (List Char)
  | [] => [[]]
  | c :: rest =>
      if c = '\n' then [] :: splitC rest
      else
        match splitC rest with
        | [] => [[c]]
        | l :: ls => (c :: l) :: ls

/-- Join chunks with a newline between them (Python `"\n".join`). -/
def joinC : List (List Char) → List Char
  | [] => []
  | [l] => l
  | l :: l2 :: ls => l ++ '\n' :: joinC (l2 :: ls)

/-- Split a character list at every dot (Python `str.split(".")`),
used by the folder-path parser. -/
def splitDotC : List Char → List (List Char)
  | [] => [[]]
  | c :: rest =>
      if c = '.' then [] :: splitDotC rest
      else
        match splitDotC rest with
        | [] => [[c]]
        | l :: ls => (c :: l) :: ls

/-- Drop a final empty chunk (a trailing newline yields no extra line in
Python `splitlines`). -/
def dropLastEmpty (L : List (List Char)) : List (List Char) :=
  match L.getLast? with
  | some [] => L.dropLast
  | _ => L

/-- Python `str.splitlines` for newline-only text. -/
def pySplitlinesC (s : List Char) : List (List Char) :=
  if s = [] then [] else dropLastEmpty (splitC s)

/-- Python `str.strip` on `String`. -/
def pyStrip (s : String) : String := String.mk (stripC s.toList)

/-- `s.startswith(p)` (kernel-reducible form of `String.startsWith`). -/
def strStartsWith (s p : String) : Bool := p.toList.isPrefixOf s.toList

/-- `s.endswith(p)` (kernel-reducible form of `String.endsWith`). -/
def strEndsWith (s p : String) : Bool := p.toList.isSuffixOf s.toList

/-- `s.lower()` (kernel-reducible form of `String.toLower`). -/
def strToLower (s : String) : String := String.mk (s.toList.map Char.toLower)

/-- `s[n:]` by character count (kernel-reducible form of `String.drop`). -/
def strDropN (s : String) (n : Nat) : String := String.mk (s.toList.drop n)

/-- VBA module types (`VBAModuleType` in the source). -/
inductive VBAModuleType where
  | DOCUMENT
  | CLASS
  | STANDARD
  | FORM
deriving DecidableEq

/-- Excel workbook document-module names (`VBADocumentNames.EXCEL_WORKBOOK_NAMES`). -/
def EXCEL_WORKBOOK_NAMES : List String :=
  ["ThisWorkbook", "DieseArbeitsmappe", "CeClasseur", "EstaLista", "QuestoFoglio",
   "EstaLista", "このブック", "本工作簿", "本活頁簿", "이통합문서", "ЭтаКнига"]

/-- Excel worksheet module name stems (`VBADocumentNames.EXCEL_SHEET_PREFIXES`). -/
def EXCEL_SHEET_PREFIXES : List String :=
  ["Sheet", "Tabelle", "Feuil", "Hoja", "Foglio", "Planilha",
   "シート", "工作表", "시트", "Лист"]

/-- Word document-module names (`VBADocumentNames.WORD_DOCUMENT_NAMES`). -/
def WORD_DOCUMENT_NAMES : List String :=
  ["ThisDocument", "DiesesDokument", "CeDocument", "EsteDocumento",
   "QuestoDocumento", "この文書", "本文檔", "本文档", "이문서", "ЭтотДокумент"]

/-- Python `str.isdigit` (ASCII subset): nonempty and all digits. -/
def pyIsdigit (s : String) : Bool := s ≠ "" && s.toList.all Char.isDigit

/-- `VBADocumentNames.is_document_module`: direct match on workbook/document
names, else a sheet stem followed only by digits. -/
def is_document_module (name : String) : Bool :=
  if EXCEL_WORKBOOK_NAMES.contains name || WORD_DOCUMENT_NAMES.contains name then
    true
  else
    EXCEL_SHEET_PREFIXES.any (fun p => strStartsWith name p && pyIsdigit (strDropN name p.length))

/-- A word character of the regex class `\w` (ASCII subset). -/
def isWordChar (c : Char) : Bool := c.isAlphanum || c = '_'

/-- `re.search(pat ++ "(\w+)", s)`: scan left to right for the literal
pattern followed by at least one word character, returning the word. -/
def searchWordAfter (pat : List Char) : List Char → Option (List Char)
  | [] => none
  | l@(_ :: rest) =>
      if pat.isPrefixOf l then
        let w := (l.drop pat.length).takeWhile isWordChar
        if w ≠ [] then some w else searchWordAfter pat rest
      else searchWordAfter pat rest

/-- `VBAComponentHandler.determine_cls_type`: a `.cls` header is a document
module when both `VB_PredeclaredId` and `VB_Exposed` are declared `True`
(case-insensitively), else a regular class module. -/
def determine_cls_type (header : String) : VBAModuleType :=
  let predeclared := searchWordAfter "Attribute VB_PredeclaredId = ".toList header.toList
  let exposed := searchWordAfter "Attribute VB_Exposed = ".toList header.toList
  match predeclared, exposed with
  | some p, some e =>
      if strToLower (String.mk p) = "true" && strToLower (String.mk e) = "true" then
        VBAModuleType.DOCUMENT
      else
        VBAModuleType.CLASS
  | _, _ => VBAModuleType.CLASS

/-- The stem/suffix view of a stored file path used by the classifier. -/
structure VBAFilePath where
  stem : String
  suffix : String
deriving DecidableEq

/-- The `ValueError("Unknown file extension: ...")` raised by the classifier. -/
inductive ClassificationError where
  | unknownExtension (suffix : String)
deriving DecidableEq

/-- `VBAComponentHandler.get_module_type`: the document-module name check
comes first, then dispatch on the lower-cased extension; for `.cls` the
sibling header file (when present) decides class vs document. -/
def get_module_type (file_path : VBAFilePath) (headerFile : Option String) :
    Except ClassificationError VBAModuleType :=
  let suffix := strToLower file_path.suffix
  let name := file_path.stem
  if is_document_module name then
    Except.ok VBAModuleType.DOCUMENT
  else if suffix = ".bas" then
    Except.ok VBAModuleType.STANDARD
  else if suffix = ".frm" then
    Except.ok VBAModuleType.FORM
  else if suffix = ".cls" then
    match headerFile with
    | some h => Except.ok (determine_cls_type h)
    | none => Except.ok VBAModuleType.CLASS
  else
    Except.error (ClassificationError.unknownExtension suffix)

/-- A line whose stripped form starts with `Attribute VB_` (the header-line
test of `split_vba_content`). -/
def isAttrC (l : List Char) : Bool :=
  "Attribute VB_".toList.isPrefixOf (stripC l)

/-- The index scan of `split_vba_content`: remember the index of the last
attribute line, and stop at the first non-attribute line once at least one
attribute line has been seen. -/
def scanGo : List (List Char) → Nat → Option Nat → Option Nat
  | [], _, acc => acc
  | l :: ls, i, acc =>
      if isAttrC l then
        scanGo ls (i + 1) (some i)
      else
        match acc with
        | some k => some k
        | none => scanGo ls (i + 1) none

/-- `VBAComponentHandler.split_vba_content`: blank content gives two empty
strings; no attribute line gives an empty header and the whole content as
code; otherwise the lines up to the last attribute index (before the first
break) are the header, the rest the code, both stripped. -/
def split_vba_content (content : String) : String × String :=
  if stripC content.toList = [] then ("", "")
  else
    let lines := pySplitlinesC content.toList
    match scanGo lines 0 none with
    | none => ("", content)
    | some k =>
        (String.mk (stripC (joinC (lines.take (k + 1)))),
         String.mk (stripC (joinC (lines.drop (k + 1)))))

/-- `VBAComponentHandler.create_minimal_header`: class modules get the class
declaration block plus the standard attributes, forms the form-begin block,
anything else just the name attribute. -/
def create_minimal_header (name : String) (module_type : VBAModuleType) : String :=
  if module_type = VBAModuleType.CLASS then
    String.intercalate "\n"
      ["VERSION 1.0 CLASS",
       "BEGIN",
       "  MultiUse = -1  \x27True",
       "END",
       "Attribute VB_Name = \x22" ++ name ++ "\x22",
       "Attribute VB_GlobalNameSpace = False",
       "Attribute VB_Creatable = False",
       "Attribute VB_PredeclaredId = False",
       "Attribute VB_Exposed = False"]
  else if module_type = VBAModuleType.FORM then
    String.intercalate "\n"
      ["VERSION 5.00",
       "Begin \x7bC62A69F0-16DC-11CE-9E98-00AA00574A4F\x7d " ++ name,
       "   Caption         =   \x22" ++ name ++ "\x22",
       "   ClientHeight    =   3000",
       "   ClientLeft      =   100",
       "   ClientTop       =   400",
       "   ClientWidth     =   4000",
       "   OleObjectBlob   =   \x22" ++ name ++ ".frx\x22:0000",
       "   StartUpPosition =   1  \x27CenterOwner",
       "End",
       "Attribute VB_Name = \x22" ++ name ++ "\x22",
       "Attribute VB_GlobalNameSpace = False",
       "Attribute VB_Creatable = False",
       "Attribute VB_PredeclaredId = True",
       "Attribute VB_Exposed = False"]
  else
    "Attribute VB_Name = \x22" ++ name ++ "\x22"

/-- `VBAComponentHandler.prepare_import_content`: synthesize a header for a
standard module without one; a nonempty header is followed by a newline and
the code, else the code alone, always with a trailing newline. -/
def prepare_import_content (name : String) (module_type : VBAModuleType)
    (header code : String) : String :=
  let header :=
    if header = "" ∧ module_type = VBAModuleType.STANDARD then
      create_minimal_header name module_type
    else header
  if header ≠ "" then header ++ "\n" ++ code ++ "\n" else code ++ "\n"

/-- One named component of the live VBA project (name plus module text). -/
structure VBAComponent where
  name : String
  body : String
deriving DecidableEq

/-- The errors raised and wrapped by the import paths (`VBAError`). -/
inductive VBAError where
  | importFailed (name : String)
  | updateDocFailed (name : String)
deriving DecidableEq

/-- `WordVBAHandler._update_document_module` (identical in the Excel
handler): look up the live component by name — a missing component raises —
clear its lines, then add the code only when it is non-blank. -/
def update_document_module (name : String) (code : String)
    (comps : List VBAComponent) : Except VBAError (List VBAComponent) :=
  match comps.find? (fun c => c.name == name) with
  | none => Except.error (VBAError.updateDocFailed name)
  | some _ =>
      Except.ok (comps.map (fun c =>
        if c.name == name then
          { c with body := if pyStrip code ≠ "" then code else "" }
        else c))

/-- The on-disk view of one stored component consumed by
`import_component`: path stem and suffix, the sibling `.header` file when
it exists, and the code file text. -/
structure StoredFile where
  stem : String
  suffix : String
  headerFile : Option String
  codeText : String
deriving DecidableEq

/-- `OfficeVBAHandler.import_component`: classify the file, read header and
code (both stripped); a document module is updated in place and the
function returns; otherwise a missing header is synthesized for class and
form modules, the content prepared, any existing component of the same
name removed (absence ignored), and the prepared content imported as a new
component. -/
def import_component (f : StoredFile) (comps : List VBAComponent) :
    Except VBAError (List VBAComponent) :=
  match get_module_type ⟨f.stem, f.suffix⟩ f.headerFile with
  | Except.error _ => Except.error (VBAError.importFailed f.stem)
  | Except.ok module_type =>
      let header := (f.headerFile.map pyStrip).getD ""
      let code := pyStrip f.codeText
      if module_type = VBAModuleType.DOCUMENT then
        match update_document_module f.stem code comps with
        | Except.error _ => Except.error (VBAError.importFailed f.stem)
        | Except.ok comps2 => Except.ok comps2
      else
        let header :=
          if header = "" ∧ (module_type = VBAModuleType.CLASS ∨ module_type = VBAModuleType.FORM)
          then create_minimal_header f.stem module_type
          else header
        let content := prepare_import_content f.stem module_type header code
        let comps2 := comps.eraseP (fun c => c.name == f.stem)
        Except.ok (comps2 ++ [⟨f.stem, content⟩])

/-- `VBATypes.VBEXT_CT_DOCUMENT`. -/
def VBEXT_CT_DOCUMENT : Nat := 100

/-- The component metadata consulted by the export loop
(`get_component_info`): name, COM type code, and line count. -/
structure ComponentInfo where
  name : String
  ctype : Nat
  code_lines : Nat
deriving DecidableEq

/-- The skip decision of `export_vba` for one component: with
`overwrite=false` and the code file already on disk, skip unless the
component is a document module with a nonzero line count. -/
def export_skips (overwrite : Bool) (file_exists : Bool) (info : ComponentInfo) : Bool :=
  !overwrite && file_exists &&
    (info.ctype != VBEXT_CT_DOCUMENT ||
      (info.ctype == VBEXT_CT_DOCUMENT && info.code_lines == 0))

/-- The export loop of `export_vba`: each component is either skipped by
`export_skips` or exported; a per-component failure is caught and the loop
continues (not modelled here as no exception escapes the skip test). -/
def export_selects (overwrite : Bool) (comps : List (ComponentInfo × Bool)) :
    List ComponentInfo :=
  comps.filterMap (fun ci => if export_skips overwrite ci.2 ci.1 then none else some ci.1)

/-- The session-level error classes of the watch loop:
`DocumentClosedError` (clean close) and `RPCError` (host lost). -/
inductive SessionError where
  | docClosed
  | rpcError
deriving DecidableEq

/-- The outcome of processing one filesystem change inside the watch loop:
success, a non-session exception (logged, loop continues), or a raised
`DocumentClosedError`/`RPCError`. -/
inductive StepOutcome where
  | ok
  | componentFailure
  | sessionError (e : SessionError)
deriving DecidableEq

/-- The per-change drain of `watch_changes`: a session error re-raises and
aborts the drain; any other exception logs and continues with the next
change.  Returns the number of changes fully processed. -/
def drain_changes : List StepOutcome → Except SessionError Nat
  | [] => Except.ok 0
  | s :: rest =>
      match s with
      | StepOutcome.sessionError e => Except.error e
      | _ =>
          match drain_changes rest with
          | Except.ok n => Except.ok (n + 1)
          | Except.error e => Except.error e

/-- One iteration of a batch loop over per-component outcomes: an exception
is caught and counted, success is counted, the loop always continues. -/
def batch_step (ab : Nat × Nat) (r : Except VBAError Unit) : Nat × Nat :=
  match r with
  | Except.ok _ => (ab.1 + 1, ab.2)
  | Except.error _ => (ab.1, ab.2 + 1)

/-- The per-file loop of `import_vba`: every exception from a single
component import is caught and the loop continues.  Returns the counts of
succeeded and failed files. -/
def import_vba_batch (steps : List (Except VBAError Unit)) : Nat × Nat :=
  steps.foldl batch_step (0, 0)

/-- The per-component loop of `export_vba`: every exception from a single
component export is caught and the loop continues. -/
def export_vba_batch (steps : List (Except VBAError Unit)) : Nat × Nat :=
  steps.foldl batch_step (0, 0)

/-- Whether a change-processing outcome is one of the session-level error
classes that the watch loop re-raises. -/
def isSessionErrorStep : StepOutcome → Bool
  | StepOutcome.sessionError _ => true
  | _ => false

/-- The whole `import_vba` operation: the initial connection check may
raise a session-level error, which aborts before any component is touched;
otherwise the batch loop runs to completion. -/
inductive ImportRunResult where
  | aborted (e : SessionError)
  | completed (succeeded failed : Nat)
deriving DecidableEq

/-- `import_vba` control flow around the batch loop. -/
def import_vba_run (conn : Option SessionError)
    (steps : List (Except VBAError Unit)) : ImportRunResult :=
  match conn with
  | some e => ImportRunResult.aborted e
  | none =>
      let ab := import_vba_batch steps
      ImportRunResult.completed ab.1 ab.2

/-- The `Change.deleted` branch of `watch_changes`: raise when the document
is no longer open; otherwise remove the live component named by the file
stem and save the document, treating an absent component as a no-op
(the lookup failure is caught and nothing is saved).  The boolean reports
whether the document was saved. -/
def handle_deleted (doc_open : Bool) (stem : String)
    (comps : List VBAComponent) : Except SessionError (List VBAComponent × Bool) :=
  if doc_open = false then
    Except.error SessionError.docClosed
  else
    match comps.find? (fun c => c.name == stem) with
    | some _ => Except.ok (comps.eraseP (fun c => c.name == stem), true)
    | none => Except.ok (comps, false)

/-- One stored code file: its directory path relative to the VBA directory
(empty for a file at the store root), its file name, and its text.  The
*write* side that produces nested paths (the Rubberduck-folders handling
that `office_cli.py` passes to the handler as `use_rubberduck_folders` and
that the tests import from `vba_edit.office_vba` as
`RUBBERDUCK_FOLDER_PATTERN`) is not present in the `office_vba.py` given
here and is modelled from §4.2 of the spec below; the enumeration side is
embedded from `import_vba`. -/
structure StoreEntry where
  folderPath : List String
  fileName : String
  content : String
deriving DecidableEq

/-- The enumeration of `OfficeVBAHandler.import_vba`: for each extension in
`[".cls", ".bas", ".frm"]` it extends the worklist with
`vba_dir.glob("*" + ext)` — a flat, non-recursive glob of the VBA
directory, modelled over the store as the entries whose relative folder
path is empty and whose file name carries the extension. -/
def import_vba_enumerate (store : List StoreEntry) : List StoreEntry :=
  store.filter (fun e => e.folderPath == [] && strEndsWith e.fileName ".cls") ++
  store.filter (fun e => e.folderPath == [] && strEndsWith e.fileName ".bas") ++
  store.filter (fun e => e.folderPath == [] && strEndsWith e.fileName ".frm")

/-- Modelled from the spec: the folder marker is a single recognized
comment line at the top of the body, of the shape `\x27@Folder("A.B")`,
whose dotted inner text gives the subdirectory chain. -/
def parseFolderPath (body : String) : List String :=
  match pySplitlinesC body.toList with
  | [] => []
  | l :: _ =>
      let line := stripC l
      if "\x27@Folder(\x22".toList.isPrefixOf line && "\x22)".toList.isSuffixOf line then
        let mid := line.drop "\x27@Folder(\x22".length
        let inner := mid.take (mid.length - "\x22)".length)
        (splitDotC inner).map String.mk
      else []

/-- The on-disk extension of each module kind (`VBATypes.TYPE_TO_EXT`). -/
def kindExt : VBAModuleType → String
  | VBAModuleType.STANDARD => ".bas"
  | VBAModuleType.CLASS => ".cls"
  | VBAModuleType.DOCUMENT => ".cls"
  | VBAModuleType.FORM => ".frm"

/-- Modelled from the spec: `write` with `foldersEnabled=true` places the
component's code file under the folder path derived from its body. -/
def writeComponentEntry (c : VBAComponent) (kind : VBAModuleType) : StoreEntry :=
  { folderPath := parseFolderPath c.body
    fileName := c.name ++ kindExt kind
    content := c.body }

/-- The stem of a stored code file name (the extension is four characters). -/
def stemOf (n : String) : String :=
  String.mk (n.toList.take (n.toList.length - 4))

/-- Modelled from the spec: `read` recovers a component from a store entry;
the component name is the code file's stem. -/
def readComponentEntry (e : StoreEntry) : VBAComponent :=
  { name := stemOf e.fileName, body := e.content }

/-! ### Helper lemmas -/

/-- `get_module_type` unfolded to its decision chain. -/
theorem get_module_type_eq (p : VBAFilePath) (h : Option String) :
    get_module_type p h =
      if is_document_module p.stem then Except.ok VBAModuleType.DOCUMENT
      else if strToLower p.suffix = ".bas" then Except.ok VBAModuleType.STANDARD
      else if strToLower p.suffix = ".frm" then Except.ok VBAModuleType.FORM
      else if strToLower p.suffix = ".cls" then
        Except.ok (match h with
          | some hdr => determine_cls_type hdr
          | none => VBAModuleType.CLASS)
      else Except.error (ClassificationError.unknownExtension (strToLower p.suffix)) := by
  cases h <;> rfl

/-- The Document branch of `import_component` in closed form. -/
theorem import_component_document_eq (f : StoredFile) (comps : List VBAComponent)
    (hdoc : get_module_type ⟨f.stem, f.suffix⟩ f.headerFile = Except.ok VBAModuleType.DOCUMENT) :
    import_component f comps =
      match comps.find? (fun c => c.name == f.stem) with
      | none => Except.error (VBAError.importFailed f.stem)
      | some _ => Except.ok (comps.map (fun c =>
          if c.name == f.stem then
            { c with body :=
                if pyStrip (pyStrip f.codeText) ≠ "" then pyStrip f.codeText else "" }
          else c)) := by
  rw [import_component, hdoc]
  cases hfind : comps.find? (fun c => c.name == f.stem) <;>
    simp [update_document_module, hfind]

theorem batch_step_foldl (steps : List (Except VBAError Unit)) :
    ∀ ab : Nat × Nat,
      (steps.foldl batch_step ab).1 + (steps.foldl batch_step ab).2
        = ab.1 + ab.2 + steps.length := by
  induction steps with
  | nil => intro ab; simp
  | cons r rest ih =>
      intro ab
      cases r <;> simp [List.foldl, batch_step, ih] <;> omega

theorem splitC_ne_nil : ∀ s : List Char, splitC s ≠ [] := by
  intro s
  induction s with
  | nil => simp [splitC]
  | cons c rest ih =>
      by_cases h : c = '\n'
      · simp [splitC, h]
      · simp only [splitC, if_neg h]
        cases hs : splitC rest <;> simp

theorem joinC_splitC : ∀ s : List Char, joinC (splitC s) = s := by
  intro s
  induction s with
  | nil => rfl
  | cons c rest ih =>
      by_cases h : c = '\n'
      · simp only [splitC, if_pos h]
        obtain ⟨l, ls, he⟩ := List.exists_cons_of_ne_nil (splitC_ne_nil rest)
        rw [he] at ih ⊢
        simp only [joinC, List.nil_append]
        rw [ih, h]
      · simp only [splitC, if_neg h]
        cases hs : splitC rest with
        | nil => exact absurd hs (splitC_ne_nil rest)
        | cons l ls =>
            rw [hs] at ih
            cases ls with
            | nil => simp only [joinC] at ih ⊢; rw [ih]
            | cons l2 ls2 =>
                simp only [joinC, List.cons_append] at ih ⊢
                rw [ih]

theorem splitC_sep : ∀ s1 s2 : List Char, splitC (s1 ++ '\n' :: s2) = splitC s1 ++ splitC s2 := by
  intro s1 s2
  induction s1 with
  | nil => simp [splitC]
  | cons c s1' ih =>
      by_cases h : c = '\n'
      · simp [splitC, h, ih]
      · simp only [List.cons_append, splitC, if_neg h, List.append_eq]
        rw [ih]
        obtain ⟨l, ls, hs⟩ := List.exists_cons_of_ne_nil (splitC_ne_nil s1')
        rw [hs]
        simp

theorem dropLastEmpty_concat_nil (L : List (List Char)) : dropLastEmpty (L ++ [[]]) = L := by
  unfold dropLastEmpty
  rw [List.getLast?_concat]
  simp

theorem mem_dropLastEmpty {l : List Char} {L : List (List Char)}
    (h : l ∈ dropLastEmpty L) : l ∈ L := by
  unfold dropLastEmpty at h
  split at h
  · exact (List.dropLast_sublist L).subset h
  · exact h

theorem scanGo_skip : ∀ (p : List (List Char)) (rest : List (List Char)) (i : Nat),
    (∀ l ∈ p, isAttrC l = false) →
    scanGo (p ++ rest) i none = scanGo rest (i + p.length) none := by
  intro p
  induction p with
  | nil => intro rest i _; simp
  | cons l p' ih =>
      intro rest i h
      have hl := h l (List.mem_cons_self l p')
      have step : scanGo ((l :: p') ++ rest) i none = scanGo (p' ++ rest) (i + 1) none := by
        simp [scanGo, hl]
      rw [step, ih rest (i + 1) (fun l' h' => h l' (List.mem_cons_of_mem l h'))]
      have : i + 1 + p'.length = i + (l :: p').length := by
        simp only [List.length_cons]; omega
      rw [this]

theorem scanGo_attrs : ∀ (a : List (List Char)), a ≠ [] →
    (∀ l ∈ a, isAttrC l = true) →
    ∀ (rest : List (List Char)) (i : Nat) (acc : Option Nat),
    scanGo (a ++ rest) i acc = scanGo rest (i + a.length) (some (i + a.length - 1)) := by
  intro a
  induction a with
  | nil => intro h; exact absurd rfl h
  | cons l a' ih =>
      intro _ h rest i acc
      have hl := h l (List.mem_cons_self l a')
      have step : scanGo ((l :: a') ++ rest) i acc = scanGo (a' ++ rest) (i + 1) (some i) := by
        simp [scanGo, hl]
      by_cases ha' : a' = []
      · subst ha'
        rw [step]
        simp
      · rw [step, ih ha' (fun l' h' => h l' (List.mem_cons_of_mem l h')) rest (i + 1) (some i)]
        have h1 : i + 1 + a'.length = i + (l :: a').length := by
          simp only [List.length_cons]; omega
        rw [h1]

theorem stripC_eq_nil_iff (l : List Char) : stripC l = [] ↔ ∀ c ∈ l, isWS c = true := by
  unfold stripC
  constructor
  · intro h c hc
    rw [List.reverse_eq_nil_iff, List.dropWhile_eq_nil_iff] at h
    have hsplit := List.takeWhile_append_dropWhile (p := isWS) (l := l)
    rw [← hsplit] at hc
    rcases List.mem_append.mp hc with h1 | h2
    · exact List.mem_takeWhile_imp h1
    · exact h _ (List.mem_reverse.mpr h2)
  · intro h
    have h1 : l.dropWhile isWS = [] := List.dropWhile_eq_nil_iff.mpr (fun x hx => h x hx)
    simp [h1]

theorem mem_joinC : ∀ (L : List (List Char)) (l : List Char), l ∈ L →
    ∀ c ∈ l, c ∈ joinC L := by
  intro L
  induction L with
  | nil => intro l h; cases h
  | cons x ls ih =>
      intro l hl c hc
      cases ls with
      | nil =>
          simp only [List.mem_singleton] at hl
          subst hl
          simpa [joinC] using hc
      | cons y ys =>
          simp only [joinC]
          rcases List.mem_cons.mp hl with h1 | h2
          · subst h1
            exact List.mem_append.mpr (Or.inl hc)
          · exact List.mem_append.mpr (Or.inr (List.mem_cons_of_mem _ (ih l h2 c hc)))

theorem isAttrC_stripC_ne_nil (l : List Char) (h : isAttrC l = true) : stripC l ≠ [] := by
  intro hnil
  unfold isAttrC at h
  rw [hnil] at h
  exact absurd h (by decide)

theorem attr_line_strip_content (s : List Char) (al : List Char)
    (hmem : al ∈ splitC s) (hattr : isAttrC al = true) : stripC s ≠ [] := by
  intro hnil
  have hws : ∀ c ∈ s, isWS c = true := (stripC_eq_nil_iff s).mp hnil
  have hal : ∀ c ∈ al, isWS c = true := fun c hc => hws c (by
    have := mem_joinC (splitC s) al hmem c hc
    rwa [joinC_splitC] at this)
  exact isAttrC_stripC_ne_nil al hattr ((stripC_eq_nil_iff al).mpr hal)

/-- The run of `split_vba_content` on content whose lines are a non-attribute
prologue, a nonempty attribute block, and a first non-attribute body line. -/
theorem split_vba_content_run (content : String)
    (hp ha : List (List Char)) (b0 : List Char) (br : List (List Char))
    (hlines : pySplitlinesC content.toList = hp ++ ha ++ b0 :: br)
    (hhp : ∀ l ∈ hp, isAttrC l = false)
    (hha : ∀ l ∈ ha, isAttrC l = true)
    (hane : ha ≠ [])
    (hb0 : isAttrC b0 = false) :
    split_vba_content content =
      (String.mk (stripC (joinC (hp ++ ha))), String.mk (stripC (joinC (b0 :: br)))) := by
  have hsne : content.toList ≠ [] := by
    intro h0
    rw [h0] at hlines
    have := congrArg List.length hlines
    simp [pySplitlinesC, List.length_append] at this
    omega
  obtain ⟨al, hal⟩ := List.exists_mem_of_ne_nil ha hane
  have halmem : al ∈ splitC content.toList := by
    have h1 : al ∈ pySplitlinesC content.toList := by
      rw [hlines]
      exact List.mem_append_left _ (List.mem_append_right hp hal)
    have h2 : pySplitlinesC content.toList = dropLastEmpty (splitC content.toList) := by
      rw [pySplitlinesC, if_neg hsne]
    rw [h2] at h1
    exact mem_dropLastEmpty h1
  have hstrip : stripC content.toList ≠ [] :=
    attr_line_strip_content _ al halmem (hha al hal)
  have hpos : 0 < ha.length := List.length_pos.mpr hane
  have hscan : scanGo (hp ++ ha ++ b0 :: br) 0 none
      = some (hp.length + ha.length - 1) := by
    rw [List.append_assoc, scanGo_skip hp _ 0 hhp,
      scanGo_attrs ha hane hha (b0 :: br) (0 + hp.length) none]
    simp only [scanGo, hb0]
    have : (0 + hp.length + ha.length - 1) = hp.length + ha.length - 1 := by omega
    simp [this]
  unfold split_vba_content
  rw [if_neg hstrip]
  simp only [hlines, hscan]
  have hK : hp.length + ha.length - 1 + 1 = (hp ++ ha).length := by
    simp only [List.length_append]; omega
  rw [hK, List.take_left, List.drop_left]

theorem toList_append (s t : String) : (s ++ t).toList = s.toList ++ t.toList := by
  cases s; cases t; rfl

theorem pySplit_prepared (H B : String) :
    pySplitlinesC ((H ++ "\n" ++ B ++ "\n").toList) = splitC H.toList ++ splitC B.toList := by
  have h1 : (H ++ "\n" ++ B ++ "\n").toList = H.toList ++ '\n' :: (B.toList ++ ['\n']) := by
    simp [toList_append, show "\n".toList = ['\n'] from rfl]
  have h2 : splitC (B.toList ++ ['\n']) = splitC B.toList ++ [[]] := by
    rw [show B.toList ++ ['\n'] = B.toList ++ '\n' :: [] from rfl, splitC_sep]
    rfl
  rw [h1]
  have hne : (H.toList ++ '\n' :: (B.toList ++ ['\n'])) ≠ [] := by simp
  rw [pySplitlinesC, if_neg hne, splitC_sep, h2, ← List.append_assoc,
    dropLastEmpty_concat_nil]

theorem isPrefixOf_append_self : ∀ (l m : List Char), l.isPrefixOf (l ++ m) = true := by
  intro l m
  induction l with
  | nil => simp [List.isPrefixOf]
  | cons a as ih => simp [List.isPrefixOf, ih]

theorem isSuffixOf_append_self (l t : List Char) : t.isSuffixOf (l ++ t) = true := by
  unfold List.isSuffixOf
  rw [List.reverse_append]
  exact isPrefixOf_append_self _ _

/-! ### Claims -/

/-- C1 (counterexample): the claim says every file with extension `.bas`
classifies as Standard, but the stored file `ThisWorkbook.bas` classifies
as Document, because the document-module name check precedes the extension
dispatch. -/
theorem C1_counterexample :
    get_module_type ⟨"ThisWorkbook", ".bas"⟩ none = Except.ok VBAModuleType.DOCUMENT ∧
    VBAModuleType.DOCUMENT ≠ VBAModuleType.STANDARD := by
  exact ⟨rfl, by decide⟩

/-- C1 (amended): for a stored file whose stem is not a known
document-module name, `.bas` classifies as Standard, `.frm` as Form,
`.cls` as the header-determined class/document kind (Class when no header
text is available), and any other extension fails with a classification
error; a file whose stem is a known document-module name classifies as
Document regardless of extension. -/
theorem C1_classify_amended :
    (∀ (p : VBAFilePath) (h : Option String), is_document_module p.stem = false →
      (strToLower p.suffix = ".bas" →
        get_module_type p h = Except.ok VBAModuleType.STANDARD) ∧
      (strToLower p.suffix = ".frm" →
        get_module_type p h = Except.ok VBAModuleType.FORM) ∧
      (strToLower p.suffix = ".cls" →
        get_module_type p h = Except.ok (match h with
          | some hdr => determine_cls_type hdr
          | none => VBAModuleType.CLASS)) ∧
      (strToLower p.suffix ≠ ".bas" → strToLower p.suffix ≠ ".frm" →
        strToLower p.suffix ≠ ".cls" →
        get_module_type p h =
          Except.error (ClassificationError.unknownExtension (strToLower p.suffix)))) ∧
    (∀ (p : VBAFilePath) (h : Option String), is_document_module p.stem = true →
      get_module_type p h = Except.ok VBAModuleType.DOCUMENT) := by
  constructor
  · intro p h hdoc
    refine ⟨?_, ?_, ?_, ?_⟩
    · intro hs; simp [get_module_type_eq, hdoc, hs]
    · intro hs; simp [get_module_type_eq, hdoc, hs]
    · intro hs; simp [get_module_type_eq, hdoc, hs]
    · intro h1 h2 h3; simp [get_module_type_eq, hdoc, h1, h2, h3]
  · intro p h hdoc
    simp [get_module_type_eq, hdoc]

/-- C1 (witness): concrete classifications for each branch of the amended
claim. -/
theorem C1_classify_amended_witness :
    get_module_type ⟨"Module1", ".bas"⟩ none = Except.ok VBAModuleType.STANDARD ∧
    get_module_type ⟨"MyForm", ".frm"⟩ none = Except.ok VBAModuleType.FORM ∧
    get_module_type ⟨"Helper", ".cls"⟩ none = Except.ok VBAModuleType.CLASS ∧
    get_module_type ⟨"Notes", ".txt"⟩ none =
      Except.error (ClassificationError.unknownExtension ".txt") := by
  refine ⟨?_, ?_, ?_, ?_⟩
  · exact (C1_classify_amended.1 ⟨"Module1", ".bas"⟩ none (by decide)).1 (by decide)
  · exact (C1_classify_amended.1 ⟨"MyForm", ".frm"⟩ none (by decide)).2.1 (by decide)
  · exact (C1_classify_amended.1 ⟨"Helper", ".cls"⟩ none (by decide)).2.2.1 (by decide)
  · exact (C1_classify_amended.1 ⟨"Notes", ".txt"⟩ none (by decide)).2.2.2
      (by decide) (by decide) (by decide)

/-- C10: a stored file whose stem is a known document-module name
classifies as Document regardless of its extension — the name check
precedes the extension dispatch, so no classification error is raised. -/
theorem C10_document_name_first (p : VBAFilePath) (h : Option String)
    (hdoc : is_document_module p.stem = true) :
    get_module_type p h = Except.ok VBAModuleType.DOCUMENT := by
  simp [get_module_type_eq, hdoc]

/-- C10 (witness): `Sheet1.bas` and `ThisDocument.xyz` both classify as
Document. -/
theorem C10_document_name_first_witness :
    get_module_type ⟨"Sheet1", ".bas"⟩ none = Except.ok VBAModuleType.DOCUMENT ∧
    get_module_type ⟨"ThisDocument", ".xyz"⟩ (some "x") = Except.ok VBAModuleType.DOCUMENT := by
  exact ⟨C10_document_name_first ⟨"Sheet1", ".bas"⟩ none (by decide),
         C10_document_name_first ⟨"ThisDocument", ".xyz"⟩ (some "x") (by decide)⟩

/-- C7: during export with `overwrite=false`, a component is skipped
exactly when its code file exists on disk and it is not a document module
with a nonzero line count — so an existing document module with code is
re-exported even though its file exists. -/
theorem C7_export_skip_rule (info : ComponentInfo) (ex : Bool) :
    export_skips false ex info = true ↔
      ex = true ∧ ¬(info.ctype = VBEXT_CT_DOCUMENT ∧ info.code_lines ≠ 0) := by
  cases ex
  · simp [export_skips, VBEXT_CT_DOCUMENT]
  · simp [export_skips, VBEXT_CT_DOCUMENT]
    omega

/-- C9: in the watch loop's Deleted branch with the document open, a live
component matching the file stem is removed and the document saved; when
no component matches, the event is a no-op (nothing removed, nothing
saved) and not an error. -/
theorem C9_deleted_idempotent (stem : String) (comps : List VBAComponent) :
    (comps.find? (fun c => c.name == stem) ≠ none →
      handle_deleted true stem comps =
        Except.ok (comps.eraseP (fun c => c.name == stem), true)) ∧
    (comps.find? (fun c => c.name == stem) = none →
      handle_deleted true stem comps = Except.ok (comps, false)) := by
  constructor
  · intro hne
    cases hfind : comps.find? (fun c => c.name == stem) with
    | none => exact absurd hfind hne
    | some c => simp [handle_deleted, hfind]
  · intro hnone
    simp [handle_deleted, hnone]

/-- C9 (witness): deleting `Old.cls` removes the live component `Old` and
saves; a second Deleted event for the same name is a no-op. -/
theorem C9_deleted_idempotent_witness :
    handle_deleted true "Old" [⟨"Old", "x"⟩] = Except.ok (([] : List VBAComponent), true) ∧
    handle_deleted true "Old" [] = Except.ok (([] : List VBAComponent), false) := by
  exact ⟨(C9_deleted_idempotent "Old" [⟨"Old", "x"⟩]).1 (by decide),
         (C9_deleted_idempotent "Old" []).2 (by decide)⟩

/-- C8: per-component failures never abort: the watch loop drains all
changes when none raises a session error, and the batch import and export
loops process every file whatever the per-file outcome; a session error
(document closed or RPC lost) aborts the drain at that point and
propagates, and a session error at the batch import's connection check
aborts the whole operation. -/
theorem C8_error_propagation :
    (∀ steps : List StepOutcome, (∀ s ∈ steps, isSessionErrorStep s = false) →
      drain_changes steps = Except.ok steps.length) ∧
    (∀ (pre : List StepOutcome) (e : SessionError) (rest : List StepOutcome),
      (∀ s ∈ pre, isSessionErrorStep s = false) →
      drain_changes (pre ++ StepOutcome.sessionError e :: rest) = Except.error e) ∧
    (∀ steps : List (Except VBAError Unit),
      (import_vba_batch steps).1 + (import_vba_batch steps).2 = steps.length) ∧
    (∀ steps : List (Except VBAError Unit),
      (export_vba_batch steps).1 + (export_vba_batch steps).2 = steps.length) ∧
    (∀ (e : SessionError) (steps : List (Except VBAError Unit)),
      import_vba_run (some e) steps = ImportRunResult.aborted e) := by
  refine ⟨?_, ?_, ?_, ?_, ?_⟩
  · intro steps h
    induction steps with
    | nil => rfl
    | cons s rest ih =>
        have hs := h s (List.mem_cons_self s rest)
        have hr := ih (fun s' hs' => h s' (List.mem_cons_of_mem s hs'))
        cases s with
        | ok => simp [drain_changes, hr]
        | componentFailure => simp [drain_changes, hr]
        | sessionError e => simp [isSessionErrorStep] at hs
  · intro pre e rest h
    induction pre with
    | nil => rfl
    | cons s pre' ih =>
        have hs := h s (List.mem_cons_self s pre')
        have hr := ih (fun s' hs' => h s' (List.mem_cons_of_mem s hs'))
        cases s with
        | ok => simp [drain_changes, hr]
        | componentFailure => simp [drain_changes, hr]
        | sessionError e' => simp [isSessionErrorStep] at hs
  · intro steps
    simpa using batch_step_foldl steps (0, 0)
  · intro steps
    simpa using batch_step_foldl steps (0, 0)
  · intro e steps
    rfl

/-- C8 (witness): a concrete drain past a component failure, a concrete
session abort, and concrete batch counts. -/
theorem C8_error_propagation_witness :
    drain_changes [StepOutcome.ok, StepOutcome.componentFailure, StepOutcome.ok] =
      Except.ok 3 ∧
    drain_changes [StepOutcome.componentFailure,
      StepOutcome.sessionError SessionError.rpcError, StepOutcome.ok] =
      Except.error SessionError.rpcError ∧
    (import_vba_batch [Except.ok (), Except.error (VBAError.importFailed "M"), Except.ok ()]).1 +
      (import_vba_batch [Except.ok (), Except.error (VBAError.importFailed "M"), Except.ok ()]).2 = 3 := by
  refine ⟨?_, ?_, ?_⟩
  · exact C8_error_propagation.1 _ (by decide)
  · exact C8_error_propagation.2.1 [StepOutcome.componentFailure] SessionError.rpcError
      [StepOutcome.ok] (by decide)
  · exact C8_error_propagation.2.2.1 _

/-- C5: when a stored file classifies as Document, the import step updates
the live component in place: the project's component names are unchanged,
a missing live component is an error (never a creation), and a present one
gets exactly the new body — the cleared module receives the code only when
it is non-blank — without ever taking the remove-then-import path. -/
theorem C5_document_in_place (f : StoredFile) (comps : List VBAComponent)
    (hdoc : get_module_type ⟨f.stem, f.suffix⟩ f.headerFile = Except.ok VBAModuleType.DOCUMENT) :
    (∀ comps2, import_component f comps = Except.ok comps2 →
      comps2.map VBAComponent.name = comps.map VBAComponent.name) ∧
    (comps.find? (fun c => c.name == f.stem) = none →
      import_component f comps = Except.error (VBAError.importFailed f.stem)) ∧
    ((∃ c, comps.find? (fun c => c.name == f.stem) = some c) →
      import_component f comps = Except.ok (comps.map (fun c =>
        if c.name == f.stem then
          { c with body :=
              if pyStrip (pyStrip f.codeText) ≠ "" then pyStrip f.codeText else "" }
        else c))) := by
  refine ⟨?_, ?_, ?_⟩
  · intro comps2 hok
    rw [import_component_document_eq f comps hdoc] at hok
    cases hfind : comps.find? (fun c => c.name == f.stem) with
    | none => rw [hfind] at hok; exact absurd hok (by simp)
    | some c =>
        rw [hfind] at hok
        simp only [Except.ok.injEq] at hok
        subst hok
        rw [List.map_map]
        apply List.map_congr_left
        intro a _
        by_cases hn : a.name == f.stem <;> simp [hn, Function.comp]
  · intro hnone
    rw [import_component_document_eq f comps hdoc, hnone]
  · rintro ⟨c, hfind⟩
    rw [import_component_document_eq f comps hdoc, hfind]

/-- C5 (witness): importing a stored `ThisWorkbook.cls` replaces the body
of the live `ThisWorkbook` component in place and touches no other
component. -/
theorem C5_document_in_place_witness :
    import_component ⟨"ThisWorkbook", ".cls", none, "Sub A()\nEnd Sub"⟩
        [⟨"ThisWorkbook", "old"⟩, ⟨"Module1", "m"⟩] =
      Except.ok [⟨"ThisWorkbook", "Sub A()\nEnd Sub"⟩, ⟨"Module1", "m"⟩] := by
  have h := (C5_document_in_place ⟨"ThisWorkbook", ".cls", none, "Sub A()\nEnd Sub"⟩
      [⟨"ThisWorkbook", "old"⟩, ⟨"Module1", "m"⟩] (by decide)).2.2
      ⟨⟨"ThisWorkbook", "old"⟩, by decide⟩
  rw [h]
  decide

/-- C2 (counterexample): the claim says the header is exactly the longest
contiguous prefix run of attribute lines, so content whose first line is
not an attribute line must yield an empty header; but `split_vba_content`
keeps prologue lines before the first attribute line in the header. -/
theorem C2_counterexample :
    split_vba_content "VERSION 1.0 CLASS\nAttribute VB_Name = \x22X\x22\nSub Y()" =
      ("VERSION 1.0 CLASS\nAttribute VB_Name = \x22X\x22", "Sub Y()") ∧
    (split_vba_content "VERSION 1.0 CLASS\nAttribute VB_Name = \x22X\x22\nSub Y()").1 ≠ "" ∧
    isAttrC
      (pySplitlinesC
        ("VERSION 1.0 CLASS\nAttribute VB_Name = \x22X\x22\nSub Y()").toList).headI = false := by
  decide

/-- C2 (amended): blank content yields two empty strings; content without
any attribute line yields an empty header and the entire content as body;
otherwise the header ends at the first non-attribute line that follows at
least one attribute line, and it consists of all lines up to the last
attribute line seen before that point — including any non-attribute
prologue lines before the first attribute line — with header and body
whitespace-stripped. -/
theorem C2_split_amended :
    (∀ content : String, stripC content.toList = [] →
      split_vba_content content = ("", "")) ∧
    (∀ content : String, stripC content.toList ≠ [] →
      (∀ l ∈ pySplitlinesC content.toList, isAttrC l = false) →
      split_vba_content content = ("", content)) ∧
    (∀ (content : String) (hp ha : List (List Char)) (b0 : List Char) (br : List (List Char)),
      pySplitlinesC content.toList = hp ++ ha ++ b0 :: br →
      (∀ l ∈ hp, isAttrC l = false) →
      (∀ l ∈ ha, isAttrC l = true) →
      ha ≠ [] →
      isAttrC b0 = false →
      split_vba_content content =
        (String.mk (stripC (joinC (hp ++ ha))), String.mk (stripC (joinC (b0 :: br))))) := by
  refine ⟨?_, ?_, ?_⟩
  · intro content h
    unfold split_vba_content
    rw [if_pos h]
  · intro content h hattr
    unfold split_vba_content
    rw [if_neg h]
    have hscan : scanGo (pySplitlinesC content.toList) 0 none = none := by
      have := scanGo_skip (pySplitlinesC content.toList) [] 0 hattr
      simpa using this
    simp only [hscan]
  · intro content hp ha b0 br h1 h2 h3 h4 h5
    exact split_vba_content_run content hp ha b0 br h1 h2 h3 h4 h5

/-- C2 (witness): the class-header prologue is kept in the header, a
plain module has no header, and blank content splits to two empty
strings. -/
theorem C2_split_amended_witness :
    split_vba_content "BEGIN\nAttribute VB_Exposed = False\nSub Y()\nAttribute VB_Memo = 1" =
      ("BEGIN\nAttribute VB_Exposed = False", "Sub Y()\nAttribute VB_Memo = 1") ∧
    split_vba_content "Sub A()\nEnd Sub" = ("", "Sub A()\nEnd Sub") ∧
    split_vba_content " \n " = ("", "") := by
  refine ⟨?_, ?_, ?_⟩
  · have h := C2_split_amended.2.2
      "BEGIN\nAttribute VB_Exposed = False\nSub Y()\nAttribute VB_Memo = 1"
      ["BEGIN".toList] ["Attribute VB_Exposed = False".toList]
      "Sub Y()".toList ["Attribute VB_Memo = 1".toList]
      (by decide) (by decide) (by decide) (by decide) (by decide)
    rw [h]
    decide
  · have h := C2_split_amended.2.1 "Sub A()\nEnd Sub" (by decide) (by decide)
    rw [h]
  · exact C2_split_amended.1 " \n " (by decide)

/-- C3 (counterexample): for an empty header and Standard kind the round
trip does not return the original pair — the synthesized name attribute
comes back as the header, a difference no whitespace normalization can
absorb. -/
theorem C3_counterexample :
    split_vba_content (prepare_import_content "Utils" VBAModuleType.STANDARD "" "Sub X()\nEnd Sub")
      ≠ ("", "Sub X()\nEnd Sub") ∧
    split_vba_content (prepare_import_content "Utils" VBAModuleType.STANDARD "" "Sub X()\nEnd Sub")
      = ("Attribute VB_Name = \x22Utils\x22", "Sub X()\nEnd Sub") ∧
    pyStrip (split_vba_content
      (prepare_import_content "Utils" VBAModuleType.STANDARD "" "Sub X()\nEnd Sub")).1 ≠ pyStrip "" := by
  decide

/-- C3 (amended): the round trip
`split_vba_content (prepare_import_content name kind H B) = (H, B)` holds
up to whitespace stripping whenever H is nonempty, H's lines consist of a
non-attribute prologue followed by a nonempty block of attribute lines,
and B's first line is not an attribute line; it fails in general, e.g.
when H is empty and the kind is Standard (a header is synthesized) or when
B opens with an attribute line (absorbed into the header). -/
theorem C3_roundtrip_amended (name : String) (kind : VBAModuleType) (H B : String)
    (hp ha : List (List Char))
    (hHne : H ≠ "")
    (hH : splitC H.toList = hp ++ ha)
    (hhp : ∀ l ∈ hp, isAttrC l = false)
    (hha : ∀ l ∈ ha, isAttrC l = true)
    (hane : ha ≠ [])
    (hb : isAttrC (splitC B.toList).headI = false) :
    split_vba_content (prepare_import_content name kind H B) = (pyStrip H, pyStrip B) := by
  have hprep : prepare_import_content name kind H B = H ++ "\n" ++ B ++ "\n" := by
    simp [prepare_import_content, hHne]
  obtain ⟨b0, br, hB⟩ := List.exists_cons_of_ne_nil (splitC_ne_nil B.toList)
  have hb0 : isAttrC b0 = false := by
    rw [hB] at hb
    simpa using hb
  have hlines : pySplitlinesC ((H ++ "\n" ++ B ++ "\n").toList) = hp ++ ha ++ b0 :: br := by
    rw [pySplit_prepared, hH, hB]
  rw [hprep,
    split_vba_content_run (H ++ "\n" ++ B ++ "\n") hp ha b0 br hlines hhp hha hane hb0,
    ← hH, ← hB, joinC_splitC, joinC_splitC]
  rfl

/-- C3 (witness): a class module with its standard header round-trips. -/
theorem C3_roundtrip_amended_witness :
    split_vba_content (prepare_import_content "Acc" VBAModuleType.CLASS
        "VERSION 1.0 CLASS\nAttribute VB_Name = \x22Acc\x22" "Sub X()\nEnd Sub") =
      ("VERSION 1.0 CLASS\nAttribute VB_Name = \x22Acc\x22", "Sub X()\nEnd Sub") := by
  have h := C3_roundtrip_amended "Acc" VBAModuleType.CLASS
      "VERSION 1.0 CLASS\nAttribute VB_Name = \x22Acc\x22" "Sub X()\nEnd Sub"
      ["VERSION 1.0 CLASS".toList] ["Attribute VB_Name = \x22Acc\x22".toList]
      (by decide) (by decide) (by decide) (by decide) (by decide) (by decide)
  rw [h]
  decide

/-- C4 (counterexample): the claim says a nonempty header is joined to the
body with a blank line between them, but the prepared content for
`Utils.bas` has no blank line at all — the body starts on the line right
after the synthesized name attribute. -/
theorem C4_counterexample :
    prepare_import_content "Utils" VBAModuleType.STANDARD "" "Sub X()\nEnd Sub" =
      "Attribute VB_Name = \x22Utils\x22\nSub X()\nEnd Sub\n" ∧
    (pySplitlinesC
      ("Attribute VB_Name = \x22Utils\x22\nSub X()\nEnd Sub\n").toList).all
        (fun l => !l.isEmpty) = true := by
  decide

/-- C4 (amended): with an empty header and Standard kind the minimal name
attribute is synthesized (`Attribute VB_Name = "Utils"` for `Utils`) and
prefixed to the body with a single newline — not a blank line — and a
trailing newline is appended; a nonempty header is likewise joined with a
single newline; an empty header with a non-Standard kind yields the body
with only the trailing newline. -/
theorem C4_prepare_amended :
    (∀ (n B : String),
      prepare_import_content n VBAModuleType.STANDARD "" B =
        create_minimal_header n VBAModuleType.STANDARD ++ "\n" ++ B ++ "\n" ∧
      create_minimal_header n VBAModuleType.STANDARD = "Attribute VB_Name = \x22" ++ n ++ "\x22") ∧
    (∀ (n : String) (k : VBAModuleType) (H B : String), H ≠ "" →
      prepare_import_content n k H B = H ++ "\n" ++ B ++ "\n") ∧
    (∀ (n : String) (k : VBAModuleType) (B : String), k ≠ VBAModuleType.STANDARD →
      prepare_import_content n k "" B = B ++ "\n") := by
  refine ⟨?_, ?_, ?_⟩
  · intro n B
    have hmin : create_minimal_header n VBAModuleType.STANDARD =
        "Attribute VB_Name = \x22" ++ n ++ "\x22" := by
      simp [create_minimal_header]
    have hne : create_minimal_header n VBAModuleType.STANDARD ≠ "" := by
      rw [hmin]
      intro hcontra
      have := congrArg String.length hcontra
      simp [String.length_append] at this
      exact absurd this.2 (by decide)
    refine ⟨?_, hmin⟩
    simp [prepare_import_content, hne]
  · intro n k H B hne
    simp [prepare_import_content, hne]
  · intro n k B hk
    simp [prepare_import_content, hk]

/-- C4 (witness): the concrete `Utils.bas` scenario and the two join
shapes. -/
theorem C4_prepare_amended_witness :
    prepare_import_content "Utils" VBAModuleType.STANDARD "" "Sub X()\nEnd Sub" =
      "Attribute VB_Name = \x22Utils\x22" ++ "\n" ++ "Sub X()\nEnd Sub" ++ "\n" ∧
    prepare_import_content "C" VBAModuleType.CLASS "HDR" "Body" = "HDR" ++ "\n" ++ "Body" ++ "\n" ∧
    prepare_import_content "C" VBAModuleType.CLASS "" "Body" = "Body" ++ "\n" := by
  refine ⟨?_, ?_, ?_⟩
  · have h := (C4_prepare_amended.1 "Utils" "Sub X()\nEnd Sub")
    rw [h.1, h.2]
    decide
  · exact C4_prepare_amended.2.1 "C" VBAModuleType.CLASS "HDR" "Body" (by decide)
  · exact C4_prepare_amended.2.2 "C" VBAModuleType.CLASS "Body" (by decide)

/-- C6 (counterexample): the claim says enumeration during import
discovers all code files by extension regardless of nesting depth, so that
a component exported under folder projection is re-imported; but the
`.cls` file written for a `\x27@Folder("A.B")`-annotated class sits two
directories deep and `import_vba`'s flat glob discovers nothing. -/
theorem C6_counterexample :
    parseFolderPath "\x27@Folder(\x22A.B\x22)\nSub X()\nEnd Sub" = ["A", "B"] ∧
    strEndsWith
      (writeComponentEntry ⟨"TestClass", "\x27@Folder(\x22A.B\x22)\nSub X()\nEnd Sub"⟩
        VBAModuleType.CLASS).fileName ".cls" = true ∧
    import_vba_enumerate
      [writeComponentEntry ⟨"TestClass", "\x27@Folder(\x22A.B\x22)\nSub X()\nEnd Sub"⟩
        VBAModuleType.CLASS] = [] := by
  decide

/-- C6 (amended): enumeration during import is not recursive —
`import_vba` collects exactly the `.cls`, `.bas` and `.frm` files at the
top level of the VBA directory, never consulting deeper entries — so
exporting and importing reproduces the live component name and body only
for a component whose derived folder path is empty (stored at the store
root). -/
theorem C6_enumerate_amended :
    (∀ (store : List StoreEntry) (e : StoreEntry),
      e ∈ import_vba_enumerate store ↔
        e ∈ store ∧ e.folderPath = [] ∧
          (strEndsWith e.fileName ".cls" = true ∨ strEndsWith e.fileName ".bas" = true ∨
           strEndsWith e.fileName ".frm" = true)) ∧
    (∀ (c : VBAComponent) (kind : VBAModuleType) (pre post : List StoreEntry),
      parseFolderPath c.body = [] →
      writeComponentEntry c kind ∈
          import_vba_enumerate (pre ++ writeComponentEntry c kind :: post) ∧
      readComponentEntry (writeComponentEntry c kind) = c) := by
  constructor
  · intro store e
    simp only [import_vba_enumerate, List.mem_append, List.mem_filter,
      Bool.and_eq_true, beq_iff_eq]
    tauto
  · intro c kind pre post hflat
    have hmem : writeComponentEntry c kind ∈ pre ++ writeComponentEntry c kind :: post :=
      List.mem_append_right _ (List.mem_cons_self _ _)
    have hfp : ((writeComponentEntry c kind).folderPath == []) = true := by
      simp [writeComponentEntry, hflat]
    constructor
    · cases kind with
      | STANDARD =>
          refine List.mem_append_left _ (List.mem_append_right _
            (List.mem_filter.mpr ⟨hmem, ?_⟩))
          rw [Bool.and_eq_true]
          refine ⟨hfp, ?_⟩
          simp only [writeComponentEntry, kindExt, strEndsWith, toList_append]
          exact isSuffixOf_append_self _ _
      | CLASS =>
          refine List.mem_append_left _ (List.mem_append_left _
            (List.mem_filter.mpr ⟨hmem, ?_⟩))
          rw [Bool.and_eq_true]
          refine ⟨hfp, ?_⟩
          simp only [writeComponentEntry, kindExt, strEndsWith, toList_append]
          exact isSuffixOf_append_self _ _
      | DOCUMENT =>
          refine List.mem_append_left _ (List.mem_append_left _
            (List.mem_filter.mpr ⟨hmem, ?_⟩))
          rw [Bool.and_eq_true]
          refine ⟨hfp, ?_⟩
          simp only [writeComponentEntry, kindExt, strEndsWith, toList_append]
          exact isSuffixOf_append_self _ _
      | FORM =>
          refine List.mem_append_right _ (List.mem_filter.mpr ⟨hmem, ?_⟩)
          rw [Bool.and_eq_true]
          refine ⟨hfp, ?_⟩
          simp only [writeComponentEntry, kindExt, strEndsWith, toList_append]
          exact isSuffixOf_append_self _ _
    · have hstem : ∀ e : String, e.toList.length = 4 → stemOf (c.name ++ e) = c.name := by
        intro e he
        unfold stemOf
        rw [toList_append, List.length_append, he, Nat.add_sub_cancel, List.take_left]
        rfl
      cases kind <;> simp [readComponentEntry, writeComponentEntry, kindExt, hstem]

/-- C6 (witness): an annotation-free `Utils.bas` at the store root is
enumerated and read back unchanged. -/
theorem C6_enumerate_amended_witness :
    writeComponentEntry ⟨"Utils", "Sub X()\nEnd Sub"⟩ VBAModuleType.STANDARD ∈
      import_vba_enumerate
        [writeComponentEntry ⟨"Utils", "Sub X()\nEnd Sub"⟩ VBAModuleType.STANDARD] ∧
    readComponentEntry (writeComponentEntry ⟨"Utils", "Sub X()\nEnd Sub"⟩
        VBAModuleType.STANDARD) = ⟨"Utils", "Sub X()\nEnd Sub"⟩ := by
  exact C6_enumerate_amended.2 ⟨"Utils", "Sub X()\nEnd Sub"⟩ VBAModuleType.STANDARD [] []
    (by decide)

end VbaEdit
